import Mathlib

/-!
Verification of the deferred-answer scheduling core of the AI-influencer bot
backend (`scheduler_service.py`, `openai_service.py`, `main.py`).

The Firebase realtime database is modelled as an explicit `Store` value, the
Cloud Tasks queue as a `Queue` value, and the OpenAI run as an environment
parameter.  Python truthiness of optional strings (`if existing_task_name:`)
is modelled by `truthyStr`.
-/

namespace Influencer

/-- A record in the `/Messages` collection, as the JSON fields used by
`scheduler_service.py`.  Fields that may be absent in the JSON are `Option`. -/
structure MsgData where
  userId : String
  message : String
  pictureUrl : Option String := none
  isAnswer : Option Bool := none
  isBot : Option Bool := none
  dateSend : Option Nat := none
deriving Repr, DecidableEq

/-- A record in the `/users` collection. -/
structure UserData where
  userId : String := ""
  taskName : Option String := none
  aiTreadId : Option String := none
deriving Repr, DecidableEq

/-- The Firebase realtime database state: both collections keyed by their
Firebase keys, plus a counter from which fresh push keys are generated. -/
structure Store where
  users : List (String × UserData) := []
  messages : List (String × MsgData) := []
  nextKey : Nat := 0
deriving Repr, DecidableEq

/-- The Cloud Tasks queue state: the names of the tasks currently present. -/
structure Queue where
  tasks : List String := []
deriving Repr, DecidableEq

/-- Python truthiness of an optional string: `None` and `""` are falsy. -/
def truthyStr : Option String → Option String
  | some s => if s == "" then none else some s
  | none => none

/-- Embeds `get_user_data`: `GET /users/{user_id}.json`, returning the record or the
empty dict. -/
def get_user_data (st : Store) (uid : String) : UserData :=
  match st.users.find? (fun p => p.1 == uid) with
  | some p => p.2
  | none => {}

/-- Embeds `save_task_name_in_user`: `PATCH /users/{user_id}.json` with
`{taskName: task_name}`; a patch on an absent path creates the record. -/
def save_task_name_in_user (st : Store) (uid t : String) : Store :=
  if st.users.any (fun p => p.1 == uid) then
    let f := fun (p : String × UserData) =>
      if p.1 == uid then (p.1, { p.2 with taskName := some t }) else p
    { st with users := st.users.map f }
  else
    { st with users := st.users ++ [(uid, { taskName := some t })] }

/-- The `PATCH /users/{user_id}.json` with `{taskName: None}` issued by
`delete_user_task`; a JSON `null` deletes the field. -/
def clear_task_name (st : Store) (uid : String) : Store :=
  let f := fun (p : String × UserData) =>
    if p.1 == uid then (p.1, { p.2 with taskName := none }) else p
  { st with users := st.users.map f }

def CALLBACK_URL : String :=
  "https://ai-influencer-bot-backend-702470178997.us-central1.run.app/tasks/answer-job"

/-- The task dict passed to `client.create_task` in `schedule_answer`.  The
source supplies `http_request` and `schedule_time` only; it never sets the
task `name` field, so `name` is `none`. -/
structure TaskRequest where
  name : Option String
  url : String
  body : String
  delaySeconds : Nat
deriving Repr, DecidableEq

def mkTaskRequest (uid : String) (time_answer : Nat) : TaskRequest :=
  { name := none
    url := CALLBACK_URL
    body := "\x7b\"userId\": \"" ++ uid ++ "\"\x7d"
    delaySeconds := time_answer }

/-- Outcome reported by the Cloud Tasks adapter for a `create_task` call:
either the server-assigned task name, or an `AlreadyExists` error. -/
inductive CreateTaskResult where
  | ok (assignedName : String)
  | alreadyExists
deriving Repr, DecidableEq

/-- Embeds `SchedulerService.schedule_answer`.  The adapter outcome `cres` is an
environment parameter; the source wraps `create_task` in no handler, so an
`AlreadyExists` error propagates to the caller (`Except.error`). -/
def schedule_answer (cres : CreateTaskResult) (st : Store) (q : Queue)
    (uid : String) (time_answer : Nat) : Except String (Store × Queue × String) :=
  let user_data := get_user_data st uid
  match truthyStr user_data.taskName with
  | some existing_task_name => .ok (st, q, existing_task_name)
  | none =>
    let _task := mkTaskRequest uid time_answer
    match cres with
    | .alreadyExists => .error "AlreadyExists"
    | .ok task_name =>
      let q' : Queue := { tasks := q.tasks ++ [task_name] }
      let st' := save_task_name_in_user st uid task_name
      .ok (st', q', task_name)

/-- Embeds `SchedulerService.delete_user_task`: reads `taskName`, deletes the queue
task (a `NotFound` from the queue is swallowed — `List.erase` of an absent
name is the identity), clears the field, returns whether anything was done. -/
def delete_user_task (st : Store) (q : Queue) (uid : String) :
    Store × Queue × Bool :=
  let user_data := get_user_data st uid
  match truthyStr user_data.taskName with
  | none => (st, q, false)
  | some task_name =>
    let q' : Queue := { tasks := q.tasks.erase task_name }
    let st' := clear_task_name st uid
    (st', q', true)

/-- Embeds `fetch_user_messages`: `/Messages.json?orderBy="userId"&equalTo=uid`,
with the Firebase key attached to each record (here: kept as the pair). -/
def fetch_user_messages (st : Store) (uid : String) : List (String × MsgData) :=
  st.messages.filter (fun p => p.2.userId == uid)

/-- Embeds `fetch_user_ai_thread_id`: `/users.json?orderBy="userId"&equalTo=uid`,
returning `aiTreadId` of the first matching record. -/
def fetch_user_ai_thread_id (st : Store) (uid : String) : Option String :=
  match st.users.find? (fun p => p.2.userId == uid) with
  | some p => p.2.aiTreadId
  | none => none

/-- The payload `store_bot_message` posts to `/Messages`. -/
def botRecord (uid bot_text : String) (now : Nat) : MsgData :=
  { userId := uid, message := bot_text, isAnswer := some true,
    isBot := some true, dateSend := some now }

def botKey (n : Nat) : String := "botmsg" ++ toString n

/-- Embeds `store_bot_message`: `POST /Messages.json`; Firebase assigns a fresh push
key, modelled by the `nextKey` counter. -/
def store_bot_message (st : Store) (uid bot_text : String) (now : Nat) : Store :=
  { st with
    messages := st.messages ++ [(botKey st.nextKey, botRecord uid bot_text now)]
    nextKey := st.nextKey + 1 }

/-- The single-message patch issued by `mark_messages_answered`:
`PATCH /Messages/{key}.json` with `{isAnswer: true}`. -/
def patchMsgAnswered (st : Store) (key : String) : Store :=
  let f := fun (p : String × MsgData) =>
    if p.1 == key then (p.1, { p.2 with isAnswer := some true }) else p
  { st with messages := st.messages.map f }

/-- Embeds `mark_messages_answered`: for each record of the fetched list whose
`isAnswer` is not truthy, patch it to `true` in the store. -/
def mark_messages_answered (st : Store) (msgs : List (String × MsgData)) : Store :=
  msgs.foldl
    (fun s m => if m.2.isAnswer == some true then s else patchMsgAnswered s m.1) st

/-- Embeds the prompt build `"\n\n".join(quoted message bodies)`. -/
def combined_text (msgs : List (String × MsgData)) : String :=
  String.intercalate "\n\n" (msgs.map (fun m => "> " ++ m.2.message))

/-- Embeds the comprehension collecting each truthy `pictureUrl` in order. -/
def image_urls (msgs : List (String × MsgData)) : List String :=
  msgs.filterMap (fun m => truthyStr m.2.pictureUrl)

/-- The sort key `x.get("dateSend", 0)`. -/
def sendKey (m : String × MsgData) : Nat := m.2.dateSend.getD 0

/-- Embeds `sorted(_, key=lambda x: x.get("dateSend", 0))` (a stable sort). -/
def sortPending (l : List (String × MsgData)) : List (String × MsgData) :=
  l.insertionSort (fun a b => sendKey a ≤ sendKey b)

/-- The messages with `isAnswer == False` among the user's messages. -/
def pendingOf (st : Store) (uid : String) : List (String × MsgData) :=
  (fetch_user_messages st uid).filter (fun m => m.2.isAnswer == some false)

/-- The aggregator's `FetchPending`: the user's unanswered messages sorted by
`dateSend` (lines 140-143 of `scheduler_service.py`). -/
def fetchPending (st : Store) (uid : String) : List (String × MsgData) :=
  sortPending (pendingOf st uid)

/-- Outcome of the OpenAI run backing a `send_prompt` /
`send_prompt_with_images` call (environment of one model round-trip). -/
inductive ModelOutcome where
  | success (reply : String)
  | failure
deriving Repr, DecidableEq

/-- The `"message"` field of the dict returned by `send_prompt` and
`send_prompt_with_images`: the parsed assistant reply on a completed run, the
literal placeholder `"Failed response"` on a failed run (no exception). -/
def send_prompt_msg : ModelOutcome → String
  | .success r => r
  | .failure => "Failed response"

structure RunResult where
  store : Store
  queue : Queue
  dispatched : Bool
deriving Repr, DecidableEq

/-- Embeds `SchedulerService.run_answer_job`.  `outcome` is the model environment,
`now` the wall-clock timestamp used for the bot message.  The Telegram
notification step touches neither store nor queue and is not modelled.
The source raises nothing on the modelled paths, so `.error` never occurs;
the `Except` wrapper is the exception channel the HTTP layer observes. -/
def run_answer_job (outcome : ModelOutcome) (now : Nat) (st : Store) (q : Queue)
    (uid : String) : Except String RunResult :=
  let messages_data := fetch_user_messages st uid
  if messages_data.isEmpty then .ok ⟨st, q, false⟩
  else
    let pending_msgs := fetchPending st uid
    if pending_msgs.isEmpty then .ok ⟨st, q, false⟩
    else
      let _text := combined_text pending_msgs
      let imgs := image_urls pending_msgs
      match truthyStr (fetch_user_ai_thread_id st uid) with
      | none => .ok ⟨st, q, false⟩
      | some _tid =>
        let assistant_message :=
          if imgs.length > 0 then send_prompt_msg outcome
          else send_prompt_msg outcome
        let st1 := store_bot_message st uid assistant_message now
        let st2 := mark_messages_answered st1 pending_msgs
        let r := delete_user_task st2 q uid
        .ok ⟨r.1, r.2.1, true⟩

/-- The `/tasks/answer-job` endpoint of `main.py`: missing/empty `userId`
gives a 400, a raised exception a 500, otherwise `{"status": "done"}` / 200. -/
def answer_job (outcome : ModelOutcome) (now : Nat) (st : Store) (q : Queue)
    (payloadUserId : Option String) : Nat :=
  match truthyStr payloadUserId with
  | none => 400
  | some uid =>
    match run_answer_job outcome now st q uid with
    | .ok _ => 200
    | .error _ => 500

/-- Status reported by `runs.retrieve` in the poll loops of
`send_prompt` and `send_prompt_with_images`. -/
inductive RunStatus where
  | completed
  | failed
  | inProgress
deriving Repr, DecidableEq

def isTerminal : RunStatus → Bool
  | .completed => true
  | .failed => true
  | .inProgress => false

/-- Environment of one run: the status observed at the i-th poll, and the
assistant text parsed after completion. -/
structure RunEnv where
  statuses : Nat → RunStatus
  reply : String

/-- The `while True` poll loop shared by `send_prompt` and
`send_prompt_with_images`, with `fuel` polls allowed starting at poll index
`i`.  Returns the resulting `"message"` string together with the number of
`time.sleep(1)` calls executed (one per non-terminal poll), or `none` if the
loop is still running after `fuel` polls. -/
def pollRun (env : RunEnv) : Nat → Nat → Option (String × Nat)
  | 0, _ => none
  | fuel + 1, i =>
    match env.statuses i with
    | .completed => some (env.reply, 0)
    | .failed => some ("Failed response", 0)
    | .inProgress =>
      match pollRun env fuel (i + 1) with
      | none => none
      | some (r, slept) => some (r, slept + 1)

/-- The message the loop yields on observing terminal status `s`. -/
def terminalMsg (env : RunEnv) : RunStatus → String
  | .completed => env.reply
  | _ => "Failed response"

/-! ### Concrete fixtures used in witnesses and counterexamples -/

def msgHello : MsgData :=
  { userId := "u1", message := "hello", isAnswer := some false, dateSend := some 5 }

def msgBye : MsgData :=
  { userId := "u1", message := "bye", isAnswer := some false, dateSend := some 3 }

def stA : Store :=
  { users := [("u1", { userId := "u1", taskName := some "t1", aiTreadId := some "th1" })],
    messages := [("m1", msgHello), ("m2", msgBye)],
    nextKey := 0 }

def qA : Queue := { tasks := ["t1"] }

def stB : Store :=
  { users := [("u2", { userId := "u2", taskName := none, aiTreadId := some "th2" })],
    messages := [("m3", { userId := "u2", message := "hi", isAnswer := some false,
                          dateSend := some 1 })],
    nextKey := 0 }

def qB : Queue := { tasks := [] }

/-- A user with a pending message but no `aiTreadId`. -/
def stC : Store :=
  { users := [("u3", { userId := "u3", taskName := some "t3", aiTreadId := none })],
    messages := [("m4", { userId := "u3", message := "ping", isAnswer := some false,
                          dateSend := some 2 })],
    nextKey := 0 }

def qC : Queue := { tasks := ["t3"] }

/-- A user with zero pending messages (its only message is answered). -/
def stD : Store :=
  { users := [("u4", { userId := "u4", taskName := some "t4", aiTreadId := some "th4" })],
    messages := [("m5", { userId := "u4", message := "old", isAnswer := some true,
                          dateSend := some 1 })],
    nextKey := 0 }

def qD : Queue := { tasks := ["t4"] }

/-- A user whose stored `taskName` names a task absent from the queue. -/
def stE : Store :=
  { users := [("u5", { userId := "u5", taskName := some "t5", aiTreadId := some "th5" })],
    messages := [],
    nextKey := 0 }

def qE : Queue := { tasks := [] }

def msgPic : MsgData :=
  { userId := "u6", message := "look", pictureUrl := some "http://x/1.png",
    isAnswer := some false, dateSend := some 9 }

def msgNoPic : MsgData :=
  { userId := "u6", message := "plain", isAnswer := some false, dateSend := some 10 }

/-- A run whose status is `inProgress` for the first two polls and
`completed` from the third on. -/
def envW : RunEnv :=
  { statuses := fun i => if i < 2 then .inProgress else .completed
    reply := "hi there" }

/-! ### Helper lemmas about the store operations -/

lemma find_map_key {α : Type} (l : List (String × α)) (uid : String) (g : α → α) :
    (l.map (fun p => if p.1 == uid then (p.1, g p.2) else p)).find?
        (fun p => p.1 == uid)
      = (l.find? (fun p => p.1 == uid)).map (fun p => (p.1, g p.2)) := by
  induction l with
  | nil => rfl
  | cons a t ih =>
    obtain ⟨k, v⟩ := a
    rw [List.map_cons]
    by_cases h : (k == uid) = true
    · rw [if_pos h]
      simp only [List.find?, h]
      rfl
    · rw [if_neg h]
      have hf : (k == uid) = false := Bool.not_eq_true _ ▸ by simpa using h
      simp only [List.find?, hf]
      exact ih

lemma find_append_of_none {α : Type} {p : α → Bool} {l l' : List α}
    (h : l.find? p = none) : (l ++ l').find? p = l'.find? p := by
  induction l with
  | nil => rfl
  | cons a t ih =>
    cases hp : p a with
    | true =>
      rw [List.find?_cons_of_pos _ hp] at h
      exact absurd h (by simp)
    | false =>
      have hneg : ¬p a := by simp [hp]
      rw [List.find?_cons_of_neg _ hneg] at h
      rw [List.cons_append, List.find?_cons_of_neg _ hneg]
      exact ih h

lemma get_user_data_save (st : Store) (uid nm : String) :
    (get_user_data (save_task_name_in_user st uid nm) uid).taskName = some nm := by
  unfold save_task_name_in_user get_user_data
  by_cases h : (st.users.any (fun p => p.1 == uid)) = true
  · rw [if_pos h]
    simp only
    rw [find_map_key st.users uid (fun d => { d with taskName := some nm })]
    rw [List.any_eq_true] at h
    obtain ⟨x, hx, hpx⟩ := h
    have hsome : (st.users.find? (fun p => p.1 == uid)).isSome := by
      rw [List.find?_isSome]
      exact ⟨x, hx, hpx⟩
    obtain ⟨y, hy⟩ := Option.isSome_iff_exists.mp hsome
    rw [hy]
    rfl
  · rw [if_neg h]
    simp only
    have hnone : st.users.find? (fun p => p.1 == uid) = none := by
      rw [List.find?_eq_none]
      intro x hx
      rw [List.any_eq_true] at h
      exact fun hpx => h ⟨x, hx, hpx⟩
    rw [find_append_of_none hnone]
    simp [List.find?]

lemma save_messages_eq (st : Store) (uid nm : String) :
    (save_task_name_in_user st uid nm).messages = st.messages := by
  unfold save_task_name_in_user
  by_cases h : st.users.any (fun p => p.1 == uid) <;> simp [h]

lemma get_user_data_clear_taskName (st : Store) (uid : String) :
    (get_user_data (clear_task_name st uid) uid).taskName = none := by
  unfold clear_task_name get_user_data
  simp only
  rw [find_map_key st.users uid (fun d => { d with taskName := none })]
  cases st.users.find? (fun p => p.1 == uid) <;> rfl

lemma clear_messages_eq (st : Store) (uid : String) :
    (clear_task_name st uid).messages = st.messages := rfl

/-- Behaviour of `schedule_answer` when the user already has a truthy `taskName`:
the stored handle is returned, nothing else happens. -/
lemma schedule_existing (cres : CreateTaskResult) (st : Store) (q : Queue)
    {uid t : String} (d : Nat)
    (h : truthyStr (get_user_data st uid).taskName = some t) :
    schedule_answer cres st q uid d = .ok (st, q, t) := by
  unfold schedule_answer
  simp only [h]

/-- Behaviour of `schedule_answer` when the user has no truthy `taskName` and the queue
accepts the new task. -/
lemma schedule_fresh (st : Store) (q : Queue) {uid : String} (nm : String) (d : Nat)
    (h : truthyStr (get_user_data st uid).taskName = none) :
    schedule_answer (.ok nm) st q uid d =
      .ok (save_task_name_in_user st uid nm, ⟨q.tasks ++ [nm]⟩, nm) := by
  unfold schedule_answer
  simp only [h]

/-- Behaviour of `schedule_answer` when the queue reports `AlreadyExists`: the source has
no handler, the exception propagates. -/
lemma schedule_already (st : Store) (q : Queue) {uid : String} (d : Nat)
    (h : truthyStr (get_user_data st uid).taskName = none) :
    schedule_answer .alreadyExists st q uid d = .error "AlreadyExists" := by
  unfold schedule_answer
  simp only [h]

lemma delete_no_task (st : Store) (q : Queue) {uid : String}
    (h : truthyStr (get_user_data st uid).taskName = none) :
    delete_user_task st q uid = (st, q, false) := by
  unfold delete_user_task
  simp only [h]

lemma delete_with_task (st : Store) (q : Queue) {uid t : String}
    (h : truthyStr (get_user_data st uid).taskName = some t) :
    delete_user_task st q uid = (clear_task_name st uid, ⟨q.tasks.erase t⟩, true) := by
  unfold delete_user_task
  simp only [h]

/-! ### Helper lemmas about marking messages answered -/

lemma mark_nil (st : Store) : mark_messages_answered st [] = st := rfl

lemma mark_cons (st : Store) (m : String × MsgData) (rest : List (String × MsgData)) :
    mark_messages_answered st (m :: rest) =
      mark_messages_answered
        (if m.2.isAnswer == some true then st else patchMsgAnswered st m.1) rest := rfl

lemma patch_users_eq (st : Store) (key : String) :
    (patchMsgAnswered st key).users = st.users := rfl

lemma mem_patchMsg {st : Store} {key : String} {p : String × MsgData}
    (hp : p ∈ (patchMsgAnswered st key).messages) :
    ∃ p0 ∈ st.messages,
      p = if p0.1 == key then (p0.1, { p0.2 with isAnswer := some true }) else p0 := by
  simp only [patchMsgAnswered, List.mem_map] at hp
  obtain ⟨p0, h0, hEq⟩ := hp
  exact ⟨p0, h0, hEq.symm⟩

lemma patch_key_answered {st : Store} {key : String} {p : String × MsgData}
    (hp : p ∈ (patchMsgAnswered st key).messages) (hk : p.1 = key) :
    p.2.isAnswer = some true := by
  obtain ⟨p0, h0, hEq⟩ := mem_patchMsg hp
  by_cases h : (p0.1 == key) = true
  · rw [if_pos h] at hEq; subst hEq; rfl
  · rw [if_neg h] at hEq
    exact absurd (beq_iff_eq.mpr (hEq ▸ hk)) h

lemma patch_preserves_answered {st : Store} {k key : String}
    (hall : ∀ p ∈ st.messages, p.1 = k → p.2.isAnswer = some true) :
    ∀ p ∈ (patchMsgAnswered st key).messages, p.1 = k → p.2.isAnswer = some true := by
  intro p hp hk
  obtain ⟨p0, h0, hEq⟩ := mem_patchMsg hp
  by_cases h : (p0.1 == key) = true
  · rw [if_pos h] at hEq; subst hEq; rfl
  · rw [if_neg h] at hEq
    rw [hEq]
    exact hall p0 h0 (hEq ▸ hk)

lemma mark_preserves_answered (k : String) :
    ∀ (batch : List (String × MsgData)) (st : Store),
    (∀ p ∈ st.messages, p.1 = k → p.2.isAnswer = some true) →
    ∀ p ∈ (mark_messages_answered st batch).messages, p.1 = k →
      p.2.isAnswer = some true := by
  intro batch
  induction batch with
  | nil => intro st hall; exact hall
  | cons m rest ih =>
    intro st hall
    rw [mark_cons]
    by_cases h : (m.2.isAnswer == some true) = true
    · rw [if_pos h]; exact ih st hall
    · rw [if_neg h]; exact ih _ (patch_preserves_answered hall)

/-- After `mark_messages_answered` runs over a batch of unanswered fetched
records, every store entry whose key occurs in the batch has
`isAnswer = some true`. -/
lemma mark_sets_answered (k : String) :
    ∀ (batch : List (String × MsgData)) (st : Store),
    k ∈ batch.map Prod.fst →
    (∀ m ∈ batch, m.2.isAnswer ≠ some true) →
    ∀ p ∈ (mark_messages_answered st batch).messages, p.1 = k →
      p.2.isAnswer = some true := by
  intro batch
  induction batch with
  | nil => intro st hk; simp at hk
  | cons m rest ih =>
    intro st hk hpend
    rw [mark_cons]
    have hm : ¬(m.2.isAnswer == some true) = true := by
      simpa using hpend m (List.mem_cons_self m rest)
    rw [if_neg hm]
    rw [List.map_cons, List.mem_cons] at hk
    rcases hk with hkm | hr
    · refine mark_preserves_answered k rest _ ?_
      intro p hp hpk
      exact patch_key_answered hp (by rw [hpk, hkm])
    · exact ih _ hr (fun x hx => hpend x (List.mem_cons_of_mem _ hx))

lemma mark_users_eq :
    ∀ (batch : List (String × MsgData)) (st : Store),
    (mark_messages_answered st batch).users = st.users := by
  intro batch
  induction batch with
  | nil => intro st; rfl
  | cons m rest ih =>
    intro st
    rw [mark_cons]
    by_cases h : (m.2.isAnswer == some true) = true
    · rw [if_pos h]; exact ih st
    · rw [if_neg h]; rw [ih _]; rfl

/-- A record update that re-sets `isAnswer` to its current value `some true`
is the identity. -/
lemma msgData_update_self {d : MsgData} (h : d.isAnswer = some true) :
    { d with isAnswer := some true } = d := by
  cases d
  simp only [MsgData.mk.injEq, and_true, true_and]
  simp only at h
  exact h.symm

lemma patch_preserves_true_entry {st : Store} {key k : String} {d : MsgData}
    (hmem : (k, d) ∈ st.messages) (hd : d.isAnswer = some true) :
    (k, d) ∈ (patchMsgAnswered st key).messages := by
  have himg := List.mem_map_of_mem
    (fun p : String × MsgData =>
      if p.1 == key then (p.1, { p.2 with isAnswer := some true }) else p) hmem
  by_cases h : (k == key) = true
  · simpa [patchMsgAnswered, h, msgData_update_self hd] using himg
  · simpa [patchMsgAnswered, h] using himg

lemma mark_preserves_true_entry {k : String} {d : MsgData} (hd : d.isAnswer = some true) :
    ∀ (batch : List (String × MsgData)) (st : Store),
    (k, d) ∈ st.messages →
    (k, d) ∈ (mark_messages_answered st batch).messages := by
  intro batch
  induction batch with
  | nil => intro st hmem; exact hmem
  | cons m rest ih =>
    intro st hmem
    rw [mark_cons]
    by_cases h : (m.2.isAnswer == some true) = true
    · rw [if_pos h]; exact ih st hmem
    · rw [if_neg h]; exact ih _ (patch_preserves_true_entry hmem hd)

/-! ### Helper lemmas about the pipeline's control flow -/

lemma mem_pendingOf_isAnswer {st : Store} {uid : String} {m : String × MsgData}
    (h : m ∈ pendingOf st uid) : m.2.isAnswer = some false := by
  unfold pendingOf at h
  rw [List.mem_filter] at h
  simpa using h.2

lemma mem_fetchPending {st : Store} {uid : String} {m : String × MsgData} :
    m ∈ fetchPending st uid ↔ m ∈ pendingOf st uid :=
  List.mem_insertionSort _

lemma mem_pendingOf_messages {st : Store} {uid : String} {m : String × MsgData}
    (h : m ∈ pendingOf st uid) : m ∈ st.messages := by
  unfold pendingOf fetch_user_messages at h
  rw [List.mem_filter] at h
  exact (List.mem_filter.mp h.1).1

lemma messages_nonempty_of_pending {st : Store} {uid : String}
    (hp : fetchPending st uid ≠ []) :
    (fetch_user_messages st uid).isEmpty = false := by
  rw [List.isEmpty_eq_false]
  intro hnil
  apply hp
  unfold fetchPending pendingOf sortPending
  rw [hnil]
  rfl

lemma run_no_pending (o : ModelOutcome) (now : Nat) (st : Store) (q : Queue)
    (uid : String) (h : fetchPending st uid = []) :
    run_answer_job o now st q uid = .ok ⟨st, q, false⟩ := by
  unfold run_answer_job
  by_cases hm : (fetch_user_messages st uid).isEmpty = true
  · rw [if_pos hm]
  · rw [if_neg hm]
    simp only [h, List.isEmpty_nil, if_true]

lemma run_no_thread (o : ModelOutcome) (now : Nat) (st : Store) (q : Queue)
    (uid : String) (hp : fetchPending st uid ≠ [])
    (ht : truthyStr (fetch_user_ai_thread_id st uid) = none) :
    run_answer_job o now st q uid = .ok ⟨st, q, false⟩ := by
  have hm := messages_nonempty_of_pending hp
  have hpe : (fetchPending st uid).isEmpty = false := by
    rw [List.isEmpty_eq_false]; exact hp
  simp only [run_answer_job, hm, hpe, Bool.false_eq_true, if_false, ht]

lemma run_full (o : ModelOutcome) (now : Nat) (st : Store) (q : Queue)
    (uid tid : String) (hp : fetchPending st uid ≠ [])
    (ht : truthyStr (fetch_user_ai_thread_id st uid) = some tid) :
    run_answer_job o now st q uid =
      .ok ⟨(delete_user_task
              (mark_messages_answered
                (store_bot_message st uid (send_prompt_msg o) now)
                (fetchPending st uid)) q uid).1,
           (delete_user_task
              (mark_messages_answered
                (store_bot_message st uid (send_prompt_msg o) now)
                (fetchPending st uid)) q uid).2.1,
           true⟩ := by
  have hm := messages_nonempty_of_pending hp
  have hpe : (fetchPending st uid).isEmpty = false := by
    rw [List.isEmpty_eq_false]; exact hp
  simp only [run_answer_job, hm, hpe, Bool.false_eq_true, if_false, ht, ite_self]

/-! ### Helper lemma for the poll loop -/

lemma pollRun_spec (env : RunEnv) :
    ∀ (n i : Nat), isTerminal (env.statuses (i + n)) = true →
    (∀ j, j < n → isTerminal (env.statuses (i + j)) = false) →
    pollRun env (n + 1) i = some (terminalMsg env (env.statuses (i + n)), n) ∧
    ∀ fuel, fuel ≤ n → pollRun env fuel i = none := by
  intro n
  induction n with
  | zero =>
    intro i hterm _
    refine ⟨?_, ?_⟩
    · cases hs : env.statuses i with
      | completed => simp [pollRun, hs, terminalMsg]
      | failed => simp [pollRun, hs, terminalMsg]
      | inProgress => rw [Nat.add_zero, hs] at hterm; exact absurd hterm (by simp [isTerminal])
    · intro fuel hf
      interval_cases fuel
      rfl
  | succ n ih =>
    intro i hterm hmin
    have h0 : env.statuses i = .inProgress := by
      have hm := hmin 0 (Nat.succ_pos n)
      rw [Nat.add_zero] at hm
      cases hs : env.statuses i <;> rw [hs] at hm <;> simp [isTerminal] at hm
    have hterm' : isTerminal (env.statuses (i + 1 + n)) = true := by
      have : i + 1 + n = i + (n + 1) := by omega
      rw [this]; exact hterm
    have hmin' : ∀ j, j < n → isTerminal (env.statuses (i + 1 + j)) = false := by
      intro j hj
      have : i + 1 + j = i + (j + 1) := by omega
      rw [this]
      exact hmin (j + 1) (by omega)
    obtain ⟨ih1, ih2⟩ := ih (i + 1) hterm' hmin'
    refine ⟨?_, ?_⟩
    · show pollRun env (n + 1 + 1) i = _
      rw [pollRun, h0]
      simp only [ih1]
      have : i + 1 + n = i + (n + 1) := by omega
      rw [this]
    · intro fuel hf
      cases fuel with
      | zero => rfl
      | succ f =>
        rw [pollRun, h0]
        simp only [ih2 f (by omega)]

lemma get_user_data_eq_of_users_eq {st st' : Store} (uid : String)
    (h : st'.users = st.users) : get_user_data st' uid = get_user_data st uid := by
  unfold get_user_data
  rw [h]

lemma delete_messages_eq (st : Store) (q : Queue) (uid : String) :
    (delete_user_task st q uid).1.messages = st.messages := by
  cases h : truthyStr (get_user_data st uid).taskName with
  | none => rw [delete_no_task st q h]
  | some t => rw [delete_with_task st q h]; rfl

/-! ### Helper lemmas about `String.intercalate` -/

lemma intercalate_go_append (s : String) :
    ∀ (l : List String) (x y : String),
      String.intercalate.go (x ++ y) s l = x ++ String.intercalate.go y s l := by
  intro l
  induction l with
  | nil => intro x y; rfl
  | cons a t ih =>
    intro x y
    show String.intercalate.go (x ++ y ++ s ++ a) s t
        = x ++ String.intercalate.go (y ++ s ++ a) s t
    have e : x ++ y ++ s ++ a = x ++ (y ++ s ++ a) := by
      simp [String.append_assoc]
    rw [e]
    exact ih x (y ++ s ++ a)

lemma intercalate_cons_cons (s a b : String) (l : List String) :
    String.intercalate s (a :: b :: l)
      = (a ++ s) ++ String.intercalate s (b :: l) := by
  show String.intercalate.go ((a ++ s) ++ b) s l
      = (a ++ s) ++ String.intercalate.go b s l
  exact intercalate_go_append s l (a ++ s) b

lemma intercalate_append_of_ne_nil (s : String) :
    ∀ (l1 l2 : List String), l1 ≠ [] → l2 ≠ [] →
      String.intercalate s (l1 ++ l2)
        = String.intercalate s l1 ++ s ++ String.intercalate s l2 := by
  intro l1
  induction l1 with
  | nil => intro l2 h1 _; exact absurd rfl h1
  | cons a t ih =>
    intro l2 _ h2
    cases t with
    | nil =>
      cases l2 with
      | nil => exact absurd rfl h2
      | cons c cs =>
        show String.intercalate s (a :: c :: cs) = _
        rw [intercalate_cons_cons]
        rfl
    | cons b bs =>
      have e1 : (a :: b :: bs) ++ l2 = a :: b :: (bs ++ l2) := rfl
      rw [e1, intercalate_cons_cons]
      have e2 : (b :: (bs ++ l2) : List String) = (b :: bs) ++ l2 := rfl
      rw [e2, ih l2 (List.cons_ne_nil b bs) h2, intercalate_cons_cons]
      simp [String.append_assoc]

/-- Post-state of the full pipeline tail (persist, mark, release), shared by
the success and the model-failure analyses. -/
lemma pipeline_post (text : String) (now : Nat) (st : Store) (q : Queue)
    (uid t : String)
    (htask : truthyStr (get_user_data st uid).taskName = some t) :
    (botKey st.nextKey, botRecord uid text now)
      ∈ (delete_user_task (mark_messages_answered
          (store_bot_message st uid text now) (fetchPending st uid)) q uid).1.messages ∧
    (∀ p ∈ (delete_user_task (mark_messages_answered
          (store_bot_message st uid text now) (fetchPending st uid)) q uid).1.messages,
      p.1 ∈ (fetchPending st uid).map Prod.fst → p.2.isAnswer = some true) ∧
    truthyStr (get_user_data (delete_user_task (mark_messages_answered
          (store_bot_message st uid text now) (fetchPending st uid)) q uid).1
        uid).taskName = none ∧
    (delete_user_task (mark_messages_answered
          (store_bot_message st uid text now) (fetchPending st uid)) q uid).2.1.tasks
      = q.tasks.erase t := by
  have husers2 : (mark_messages_answered (store_bot_message st uid text now)
      (fetchPending st uid)).users = st.users := by
    rw [mark_users_eq]
    rfl
  have htask2 : truthyStr (get_user_data (mark_messages_answered
      (store_bot_message st uid text now) (fetchPending st uid)) uid).taskName
      = some t := by
    rw [get_user_data_eq_of_users_eq uid husers2]
    exact htask
  have hdel := delete_with_task (mark_messages_answered
    (store_bot_message st uid text now) (fetchPending st uid)) q htask2
  have hmsgs := delete_messages_eq (mark_messages_answered
    (store_bot_message st uid text now) (fetchPending st uid)) q uid
  refine ⟨?_, ?_, ?_, ?_⟩
  · rw [hmsgs]
    apply mark_preserves_true_entry rfl
    show _ ∈ st.messages ++ [(botKey st.nextKey, botRecord uid text now)]
    exact List.mem_append_right _ (by simp)
  · intro p hp' hk
    rw [hmsgs] at hp'
    refine mark_sets_answered p.1 (fetchPending st uid) _ hk ?_ p hp' rfl
    intro m hm
    rw [mem_pendingOf_isAnswer (mem_fetchPending.mp hm)]
    simp
  · rw [hdel]
    show truthyStr (get_user_data (clear_task_name _ uid) uid).taskName = none
    rw [get_user_data_clear_taskName]
    rfl
  · rw [hdel]

/-! ## Claim theorems -/

/-- Claim C1: if the user's stored record already has an active `taskName`,
`schedule_answer` returns that handle unchanged, creates no queue task and
writes nothing to the store; if the record has none, it creates exactly one
queue task and persists its handle into the user record. -/
theorem C1_schedule_idempotent (cres : CreateTaskResult) (st : Store) (q : Queue)
    (uid nm : String) (d : Nat) :
    (∀ t, truthyStr (get_user_data st uid).taskName = some t →
        schedule_answer cres st q uid d = .ok (st, q, t)) ∧
    (truthyStr (get_user_data st uid).taskName = none →
      ∃ st', schedule_answer (.ok nm) st q uid d = .ok (st', ⟨q.tasks ++ [nm]⟩, nm) ∧
        (get_user_data st' uid).taskName = some nm ∧
        st'.messages = st.messages) := by
  constructor
  · intro t h
    exact schedule_existing cres st q d h
  · intro h
    exact ⟨save_task_name_in_user st uid nm, schedule_fresh st q nm d h,
      get_user_data_save st uid nm, save_messages_eq st uid nm⟩

/-- Witness for C1 at a concrete user that already holds handle `"t1"`. -/
theorem C1_schedule_idempotent_witness :
    schedule_answer (.ok "n1") stA qA "u1" 30 = .ok (stA, qA, "t1") :=
  (C1_schedule_idempotent (.ok "n1") stA qA "u1" "n1" 30).1 "t1" rfl

/-- Counterexample to C2 as stated: user `"u3"` has a pending message and no
`aiTreadId`, yet `run_answer_job` returns normally (no error) and the
callback endpoint answers 200, not a non-2xx job failure. -/
theorem C2_counterexample :
    run_answer_job .failure 0 stC qC "u3" = .ok ⟨stC, qC, false⟩ ∧
    answer_job .failure 0 stC qC (some "u3") = 200 := ⟨rfl, rfl⟩

/-- Claim C2 as amended: when the user has no truthy `aiTreadId`,
`run_answer_job` performs no model dispatch and no store or queue mutation
and leaves job bookkeeping untouched, but the abort is silent: the function
returns normally and the callback endpoint responds 200 (2xx), so the queue
does not retry. -/
theorem C2_no_thread_silent (o : ModelOutcome) (now : Nat) (st : Store) (q : Queue)
    (uid : String) (huid : uid ≠ "")
    (ht : truthyStr (fetch_user_ai_thread_id st uid) = none) :
    run_answer_job o now st q uid = .ok ⟨st, q, false⟩ ∧
    answer_job o now st q (some uid) = 200 := by
  by_cases hp : fetchPending st uid = []
  · have h1 := run_no_pending o now st q uid hp
    exact ⟨h1, by simp [answer_job, truthyStr, huid, h1]⟩
  · have h1 := run_no_thread o now st q uid hp ht
    exact ⟨h1, by simp [answer_job, truthyStr, huid, h1]⟩

/-- Witness for the amended C2 at the concrete user `"u3"`. -/
theorem C2_no_thread_silent_witness :
    run_answer_job .failure 3 stC qC "u3" = .ok ⟨stC, qC, false⟩ ∧
    answer_job .failure 3 stC qC (some "u3") = 200 :=
  C2_no_thread_silent .failure 3 stC qC "u3" (by decide) rfl

/-- Counterexample to C3 as stated: on a user with no stored handle, when the
queue reports the task already exists, `schedule_answer` does not return the
pre-existing handle — the `AlreadyExists` error propagates and the caller
fails. -/
theorem C3_counterexample :
    schedule_answer .alreadyExists stB qB "u2" 30 = .error "AlreadyExists" := rfl

/-- Claim C3 as amended: the task request `schedule_answer` passes to the
queue carries no caller-supplied job key at all (its `name` field is unset;
the queue assigns the handle), and if the queue reports the task already
exists the error is not treated as success: it propagates to the caller. -/
theorem C3_no_key_and_already_exists_propagates (st : Store) (q : Queue)
    (uid : String) (d : Nat)
    (h : truthyStr (get_user_data st uid).taskName = none) :
    (mkTaskRequest uid d).name = none ∧
    schedule_answer .alreadyExists st q uid d = .error "AlreadyExists" :=
  ⟨rfl, schedule_already st q d h⟩

/-- Witness for the amended C3 at the concrete user `"u2"`. -/
theorem C3_no_key_and_already_exists_propagates_witness :
    (mkTaskRequest "u2" 30).name = none ∧
    schedule_answer .alreadyExists stB qB "u2" 30 = .error "AlreadyExists" :=
  C3_no_key_and_already_exists_propagates stB qB "u2" 30 rfl

/-- Claim C4: for a user with zero pending messages, `run_answer_job`
mutates nothing (store and queue unchanged, so the stored `taskName` is left
as-is), dispatches no model call, and completes successfully, the callback
endpoint responding 200. -/
theorem C4_empty_batch_noop (o : ModelOutcome) (now : Nat) (st : Store) (q : Queue)
    (uid : String) (huid : uid ≠ "") (hp : pendingOf st uid = []) :
    run_answer_job o now st q uid = .ok ⟨st, q, false⟩ ∧
    answer_job o now st q (some uid) = 200 := by
  have hfp : fetchPending st uid = [] := by
    unfold fetchPending sortPending
    rw [hp]
    rfl
  have h1 := run_no_pending o now st q uid hfp
  exact ⟨h1, by simp [answer_job, truthyStr, huid, h1]⟩

/-- Witness for C4 at the concrete user `"u4"`, whose only message is
already answered. -/
theorem C4_empty_batch_noop_witness :
    run_answer_job .failure 3 stD qD "u4" = .ok ⟨stD, qD, false⟩ ∧
    answer_job .failure 3 stD qD (some "u4") = 200 :=
  C4_empty_batch_noop .failure 3 stD qD "u4" (by decide) rfl

/-- Claim C7: `delete_user_task` (Cancel) on a user with no stored handle is
a no-op returning `false`; with a handle it deletes the queue task (an
absent task is tolerated: `erase` of an absent name is the identity), clears
the stored handle and returns `true`; a second immediate Cancel is then a
no-op returning `false`. -/
theorem C7_cancel_idempotent (st : Store) (q : Queue) (uid : String) :
    (truthyStr (get_user_data st uid).taskName = none →
      delete_user_task st q uid = (st, q, false)) ∧
    (∀ t, truthyStr (get_user_data st uid).taskName = some t →
      (delete_user_task st q uid).2.2 = true ∧
      (delete_user_task st q uid).2.1.tasks = q.tasks.erase t ∧
      truthyStr (get_user_data (delete_user_task st q uid).1 uid).taskName = none ∧
      delete_user_task (delete_user_task st q uid).1 (delete_user_task st q uid).2.1 uid
        = ((delete_user_task st q uid).1, (delete_user_task st q uid).2.1, false)) := by
  constructor
  · exact delete_no_task st q
  · intro t h
    rw [delete_with_task st q h]
    refine ⟨rfl, rfl, ?_, ?_⟩
    · rw [get_user_data_clear_taskName]
      rfl
    · apply delete_no_task
      rw [get_user_data_clear_taskName]
      rfl

/-- Witness for C7 at the concrete user `"u1"` with handle `"t1"`. -/
theorem C7_cancel_idempotent_witness :
    (delete_user_task stA qA "u1").2.2 = true ∧
    (delete_user_task stA qA "u1").2.1.tasks = qA.tasks.erase "t1" ∧
    truthyStr (get_user_data (delete_user_task stA qA "u1").1 "u1").taskName = none ∧
    delete_user_task (delete_user_task stA qA "u1").1 (delete_user_task stA qA "u1").2.1 "u1"
      = ((delete_user_task stA qA "u1").1, (delete_user_task stA qA "u1").2.1, false) :=
  (C7_cancel_idempotent stA qA "u1").2 "t1" rfl

/-- Claim C10: a non-null stored `taskName` is sticky. `schedule_answer`
returns it without consulting the queue (the theorem holds for every queue
state, in particular when the named task is no longer present) and creates
no task; a run that finds no pending messages leaves it in place; and
`delete_user_task` is what clears it. -/
theorem C10_stale_handle_sticky (cres : CreateTaskResult) (o : ModelOutcome)
    (now d : Nat) (st : Store) (q : Queue) (uid t : String)
    (hT : truthyStr (get_user_data st uid).taskName = some t)
    (hstale : t ∉ q.tasks) :
    schedule_answer cres st q uid d = .ok (st, q, t) ∧
    (pendingOf st uid = [] → run_answer_job o now st q uid = .ok ⟨st, q, false⟩) ∧
    (delete_user_task st q uid).2.2 = true ∧
    truthyStr (get_user_data (delete_user_task st q uid).1 uid).taskName = none := by
  refine ⟨schedule_existing cres st q d hT, ?_, ?_, ?_⟩
  · intro hp
    have hfp : fetchPending st uid = [] := by
      unfold fetchPending sortPending
      rw [hp]
      rfl
    exact run_no_pending o now st q uid hfp
  · rw [delete_with_task st q hT]
  · rw [delete_with_task st q hT]
    rw [get_user_data_clear_taskName]
    rfl

/-- Witness for C10 at the concrete user `"u5"`, whose stored handle `"t5"`
names a task absent from the (empty) queue. -/
theorem C10_stale_handle_sticky_witness :
    schedule_answer (.ok "n5") stE qE "u5" 60 = .ok (stE, qE, "t5") ∧
    run_answer_job .failure 0 stE qE "u5" = .ok ⟨stE, qE, false⟩ := by
  have h := C10_stale_handle_sticky (.ok "n5") .failure 0 60 stE qE "u5" "t5" rfl
    (by decide)
  exact ⟨h.1, h.2.1 rfl⟩

/-- Claim C5: when the model reports failure the dispatch does not raise —
it yields the placeholder reply `"Failed response"` — and the run still
persists the bot message, marks the consumed batch answered and releases the
job, producing exactly the same final state as a successful run whose reply
happens to be the placeholder text. -/
theorem C5_model_failure_degrades (now : Nat) (st : Store) (q : Queue)
    (uid tid t : String)
    (hp : fetchPending st uid ≠ [])
    (ht : truthyStr (fetch_user_ai_thread_id st uid) = some tid)
    (htask : truthyStr (get_user_data st uid).taskName = some t) :
    run_answer_job .failure now st q uid
      = run_answer_job (.success "Failed response") now st q uid ∧
    ∃ res, run_answer_job .failure now st q uid = .ok res ∧
      res.dispatched = true ∧
      (botKey st.nextKey, botRecord uid "Failed response" now) ∈ res.store.messages ∧
      (∀ p ∈ res.store.messages,
        p.1 ∈ (fetchPending st uid).map Prod.fst → p.2.isAnswer = some true) ∧
      truthyStr (get_user_data res.store uid).taskName = none ∧
      res.queue.tasks = q.tasks.erase t := by
  have hrunF := run_full .failure now st q uid tid hp ht
  have hrunS := run_full (.success "Failed response") now st q uid tid hp ht
  have hpost := pipeline_post "Failed response" now st q uid t htask
  exact ⟨hrunF.trans hrunS.symm,
    ⟨(delete_user_task (mark_messages_answered
          (store_bot_message st uid "Failed response" now) (fetchPending st uid))
        q uid).1,
      (delete_user_task (mark_messages_answered
          (store_bot_message st uid "Failed response" now) (fetchPending st uid))
        q uid).2.1,
      true⟩,
    hrunF, rfl, hpost.1, hpost.2.1, hpost.2.2.1, hpost.2.2.2⟩

/-- Witness for C5 at the concrete user `"u1"` with two pending messages. -/
theorem C5_model_failure_degrades_witness :
    run_answer_job .failure 7 stA qA "u1"
      = run_answer_job (.success "Failed response") 7 stA qA "u1" :=
  (C5_model_failure_degrades 7 stA qA "u1" "th1" "t1" (by decide) rfl rfl).1

/-- Claim C6: `fetchPending` never returns a message whose `isAnswer` is
`true` (it returns exactly `isAnswer == False` records), and after
`mark_messages_answered` runs over a fetched batch, a subsequent
`fetchPending` for the same user returns none of the batch's messages. -/
theorem C6_fetch_pending_mark (st : Store) (uid : String) :
    (∀ m ∈ fetchPending st uid, m.2.isAnswer = some false) ∧
    (∀ m', m' ∈ fetchPending (mark_messages_answered st (fetchPending st uid)) uid →
      m'.1 ∉ (fetchPending st uid).map Prod.fst) := by
  constructor
  · intro m hm
    exact mem_pendingOf_isAnswer (mem_fetchPending.mp hm)
  · intro m' hm' hk
    have h1 : m'.2.isAnswer = some false :=
      mem_pendingOf_isAnswer (mem_fetchPending.mp hm')
    have h2 : m' ∈ (mark_messages_answered st (fetchPending st uid)).messages :=
      mem_pendingOf_messages (mem_fetchPending.mp hm')
    have hbatch : ∀ m ∈ fetchPending st uid, m.2.isAnswer ≠ some true := by
      intro m hm
      rw [mem_pendingOf_isAnswer (mem_fetchPending.mp hm)]
      simp
    have h3 := mark_sets_answered m'.1 (fetchPending st uid) st hk hbatch m' h2 rfl
    rw [h1] at h3
    exact absurd h3 (by simp)

/-- Witness for C6 at the concrete store `stA`. -/
theorem C6_fetch_pending_mark_witness :
    ("m2", msgBye).2.isAnswer = some false :=
  (C6_fetch_pending_mark stA "u1").1 ("m2", msgBye) (by decide)

/-- Claim C8: `Combine`.  The prompt of the empty batch is empty and it has
no attachments; a singleton renders as one quoted block; concatenating
batches concatenates their prompts with a blank line between and their
attachment lists in order; a message contributes exactly its present
attachment and nothing when it has none. -/
theorem C8_combine_characterization :
    combined_text [] = "" ∧
    image_urls [] = [] ∧
    (∀ m : String × MsgData, combined_text [m] = "> " ++ m.2.message) ∧
    (∀ xs ys : List (String × MsgData), xs ≠ [] → ys ≠ [] →
      combined_text (xs ++ ys) = combined_text xs ++ "\n\n" ++ combined_text ys) ∧
    (∀ xs ys : List (String × MsgData),
      image_urls (xs ++ ys) = image_urls xs ++ image_urls ys) ∧
    (∀ (m : String × MsgData) (u : String), truthyStr m.2.pictureUrl = some u →
      image_urls [m] = [u]) ∧
    (∀ m : String × MsgData, truthyStr m.2.pictureUrl = none →
      image_urls [m] = []) := by
  refine ⟨rfl, rfl, ?_, ?_, ?_, ?_, ?_⟩
  · intro m
    rfl
  · intro xs ys hxs hys
    unfold combined_text
    rw [List.map_append]
    exact intercalate_append_of_ne_nil "\n\n" _ _ (by simpa using hxs)
      (by simpa using hys)
  · intro xs ys
    unfold image_urls
    rw [List.filterMap_append]
  · intro m u h
    unfold image_urls
    simp [List.filterMap_cons, h]
  · intro m h
    unfold image_urls
    simp [List.filterMap_cons, h]

/-- Witness for C8 at two concrete messages, one with an attachment. -/
theorem C8_combine_characterization_witness :
    combined_text [("k1", msgPic), ("k2", msgNoPic)]
      = combined_text [("k1", msgPic)] ++ "\n\n" ++ combined_text [("k2", msgNoPic)] ∧
    image_urls [("k1", msgPic)] = ["http://x/1.png"] :=
  ⟨C8_combine_characterization.2.2.2.1 [("k1", msgPic)] [("k2", msgNoPic)]
      (by simp) (by simp),
    C8_combine_characterization.2.2.2.2.2.1 ("k1", msgPic) "http://x/1.png"
      (by decide)⟩

/-- Claim C9: the poll loop of `send_prompt` / `send_prompt_with_images`.
For every run whose status sequence eventually reports a terminal state the
loop terminates: it exits exactly at the first poll observing `completed` or
`failed` (index `k`), having slept one second per earlier non-terminal poll
(`k` sleeps), returning the parsed reply on `completed` and the placeholder
on `failed`; with at most `k` polls of fuel it has not yet exited. -/
theorem C9_poll_loop (env : RunEnv) (n : Nat)
    (hterm : isTerminal (env.statuses n) = true) :
    ∃ k, k ≤ n ∧ isTerminal (env.statuses k) = true ∧
      (∀ j, j < k → isTerminal (env.statuses j) = false) ∧
      pollRun env (k + 1) 0 = some (terminalMsg env (env.statuses k), k) ∧
      (∀ fuel, fuel ≤ k → pollRun env fuel 0 = none) := by
  have hex : ∃ m, isTerminal (env.statuses m) = true := ⟨n, hterm⟩
  have hmin : ∀ j, j < Nat.find hex → isTerminal (env.statuses j) = false := by
    intro j hj
    have := Nat.find_min hex hj
    simpa using this
  have hsp := pollRun_spec env (Nat.find hex) 0
    (by simpa using Nat.find_spec hex)
    (fun j hj => by simpa using hmin j hj)
  refine ⟨Nat.find hex, Nat.find_min' hex hterm, Nat.find_spec hex, hmin, ?_, ?_⟩
  · simpa using hsp.1
  · exact hsp.2

/-- Witness for C9 at a run completing on the third poll. -/
theorem C9_poll_loop_witness :
    ∃ k, k ≤ 2 ∧ isTerminal (envW.statuses k) = true ∧
      (∀ j, j < k → isTerminal (envW.statuses j) = false) ∧
      pollRun envW (k + 1) 0 = some (terminalMsg envW (envW.statuses k), k) ∧
      (∀ fuel, fuel ≤ k → pollRun envW fuel 0 = none) :=
  C9_poll_loop envW 2 (by decide)

end Influencer
